import Mathlib

/-!
Verification development for the kyrnex dynexpress core: a shallow embedding
of `src/modules/dynexpress/dynexpress.mjs` (class `DynExpress`) and
`src/modules/dynexpress/utils/dynreload.mjs` (class `Dynreload`).

JavaScript values that the code inspects dynamically (route descriptors,
modules, `launch` selectors) are modelled by the inductive `JSValue`;
JavaScript `Map` objects are modelled as association lists with the first
binding for a key authoritative (keys are kept unique by construction, as a
`Map` does); asynchronous external effects (dynamic `import`, `fs.statSync`,
port probing, `listen`) are modelled as explicit environment parameters, and
each operation of the source is a pure state-transition function.  File
paths are taken to be already absolute, so `path.resolve` is the identity.
-/

namespace Kyrnex

/-- Model of a dynamic JavaScript value, covering the observations the
dynexpress code makes: truthiness, `typeof`, property access, array shape. -/
inductive JSValue where
  | undef : JSValue
  | nullV : JSValue
  | boolV : Bool → JSValue
  | numV : Int → JSValue
  | strV : String → JSValue
  | func : Nat → JSValue
  | arr : List JSValue → JSValue
  | obj : List (String × JSValue) → JSValue
deriving Repr

/-- JavaScript truthiness (`if (v)`).  `NaN` is not modelled. -/
def truthy : JSValue → Bool
  | JSValue.undef => false
  | JSValue.nullV => false
  | JSValue.boolV b => b
  | JSValue.numV n => n != 0
  | JSValue.strV s => s ≠ ""
  | JSValue.func _ => true
  | JSValue.arr _ => true
  | JSValue.obj _ => true

/-- JavaScript `typeof v`. -/
def jsTypeof : JSValue → String
  | JSValue.undef => "undefined"
  | JSValue.nullV => "object"
  | JSValue.boolV _ => "boolean"
  | JSValue.numV _ => "number"
  | JSValue.strV _ => "string"
  | JSValue.func _ => "function"
  | JSValue.arr _ => "object"
  | JSValue.obj _ => "object"

/-- Property lookup on object fields, as in `v.k` / `v[k]`; absent
properties (and properties of non-objects) read as `undefined`. -/
def getField : JSValue → String → JSValue
  | JSValue.obj fields, k => (fields.lookup k).getD JSValue.undef
  | _, _ => JSValue.undef

/-- The underlying string of a string value (`""` for non-strings; only used
after a `typeof v === "string"` test in the embedded code). -/
def asString : JSValue → String
  | JSValue.strV s => s
  | _ => ""

/-- `s.toLowerCase()` on a string (character-wise lowering; HTTP method
names are ASCII, where this coincides with the JavaScript behaviour). -/
def lowerString (s : String) : String := String.mk (s.data.map Char.toLower)

/-- `s.startsWith(pre)` (character-wise prefix test). -/
def jsStartsWith (s pre : String) : Bool := pre.data.isPrefixOf s.data

/-- `v.toLowerCase()` succeeds only on strings; on anything else the call
throws a `TypeError`, modelled as `none`. -/
def jsToLower : JSValue → Option String
  | JSValue.strV s => some (lowerString s)
  | _ => none

/-! ### JavaScript `Map` as an association list -/

/-- `map.get(k)` — first binding wins (keys are unique in a real `Map`). -/
def mapGet {β : Type} : List (String × β) → String → Option β
  | [], _ => none
  | (k', v) :: rest, k => if k' = k then some v else mapGet rest k

/-- `map.set(k, v)`: replace the binding in place, or append a new one. -/
def mapSet {β : Type} : List (String × β) → String → β → List (String × β)
  | [], k, v => [(k, v)]
  | (k', v') :: rest, k, v =>
    if k' = k then (k, v) :: rest else (k', v') :: mapSet rest k v

/-- `map.delete(k)`. -/
def mapDelete {β : Type} : List (String × β) → String → List (String × β)
  | [], _ => []
  | (k', v') :: rest, k =>
    if k' = k then mapDelete rest k else (k', v') :: mapDelete rest k

/-- `map.has(k)`. -/
def mapHas {β : Type} (m : List (String × β)) (k : String) : Bool :=
  (mapGet m k).isSome

theorem mapGet_mapSet_self {β : Type} (m : List (String × β)) (k : String) (v : β) :
    mapGet (mapSet m k v) k = some v := by
  induction m with
  | nil => simp [mapSet, mapGet]
  | cons hd tl ih =>
    obtain ⟨k', v'⟩ := hd
    by_cases h : k' = k
    · simp [mapSet, mapGet, h]
    · simp [mapSet, mapGet, h, ih]

theorem mapGet_mapSet_ne {β : Type} (m : List (String × β)) (k k' : String) (v : β)
    (h : k ≠ k') : mapGet (mapSet m k v) k' = mapGet m k' := by
  induction m with
  | nil => simp [mapSet, mapGet, h]
  | cons hd tl ih =>
    obtain ⟨k0, v0⟩ := hd
    by_cases h0 : k0 = k
    · subst h0
      simp [mapSet, mapGet, h]
    · simp only [mapSet, if_neg h0]
      by_cases h1 : k0 = k'
      · simp [mapGet, h1]
      · simp [mapGet, h1, ih]

theorem mapGet_mapDelete_self {β : Type} (m : List (String × β)) (k : String) :
    mapGet (mapDelete m k) k = none := by
  induction m with
  | nil => simp [mapDelete, mapGet]
  | cons hd tl ih =>
    obtain ⟨k', v'⟩ := hd
    by_cases h : k' = k
    · simp [mapDelete, h, ih]
    · simp [mapDelete, mapGet, h, ih]

theorem mapGet_mapDelete_ne {β : Type} (m : List (String × β)) (k k' : String)
    (h : k ≠ k') : mapGet (mapDelete m k) k' = mapGet m k' := by
  induction m with
  | nil => simp [mapDelete]
  | cons hd tl ih =>
    obtain ⟨k0, v0⟩ := hd
    by_cases h0 : k0 = k
    · subst h0
      simp [mapDelete, mapGet, ih, h]
    · by_cases h1 : k0 = k'
      · subst h1
        simp [mapDelete, mapGet, h0, ih, Ne.symm h]
      · simp [mapDelete, mapGet, h0, h1, ih]

/-! ### Dynreload: route-structure validation (`#validateRouteStructure`)

Lines 21–51 of `dynreload.mjs`.  The function either returns `true` or
throws; we model the verdict as a `Bool` (`true` = no throw).  A non-string
truthy `method` makes `method.toLowerCase()` throw, hence invalid. -/

def validMethods : List String :=
  ["get", "post", "put", "delete", "patch", "options", "head"]

/-- One iteration of the validation loop of `#validateRouteStructure`. -/
def validRoute (route : JSValue) : Bool :=
  truthy (getField route "method") &&
  truthy (getField route "path") &&
  truthy (getField route "handler") &&
  (match jsToLower (getField route "method") with
   | some m => validMethods.contains m
   | none => false) &&
  (match getField route "path" with
   | JSValue.strV p => jsStartsWith p "/"
   | _ => false) &&
  (jsTypeof (getField route "handler") = "function")

/-- `#validateRouteStructure(routes)`: `true` iff the call would return
(rather than throw). -/
def validateRouteStructure (routes : JSValue) : Bool :=
  match routes with
  | JSValue.arr rs => rs.all validRoute
  | _ => false

/-! ### Dynreload: `#tryImportModule` (lines 53–68)

The dynamic `import` either throws (parse/execution failure) or yields a
module namespace object; its outcome is an environment input.  On success
the code takes `module.default || module` and — the structural validation
being commented out in the source — returns success unconditionally. -/

/-- Outcome of the dynamic `import` of a file, an external effect. -/
inductive ImportOutcome where
  | threw : String → ImportOutcome
  | loaded : JSValue → ImportOutcome

/-- `#tryImportModule`: `Except.error` models `{ success: false, error }`,
`Except.ok routes` models `{ success: true, routes, module }`. -/
def tryImportModule : ImportOutcome → Except String JSValue
  | ImportOutcome.threw msg => Except.error msg
  | ImportOutcome.loaded m =>
    Except.ok (if truthy (getField m "default") then getField m "default" else m)

/-! ### Dynreload state and `#reloadModule` (lines 179–216) -/

/-- The `{ module, lastModified, filePath }` records stored in `cache` and
`lastValidModules` (the `filePath` field always equals the key and is
omitted). -/
structure ModuleInfo where
  module : JSValue
  lastModified : Nat
deriving Repr

/-- The mutable `options` record of a `Dynreload` object (watcher handles
are identified with their paths; callbacks are opaque identifiers). -/
structure DynreloadState where
  silent : Bool
  cache : List (String × ModuleInfo)
  watchedFiles : List String
  routeUpdateCallbacks : List (String × Nat)
  lastValidModules : List (String × ModuleInfo)
  dependencyGraph : List (String × List String)
deriving Repr

/-- External effects consumed by one `#reloadModule` call: the dynamic
module-import outcome and the `fs.statSync` outcome (`none` = it threw). -/
structure ReloadEnv where
  importOutcome : ImportOutcome
  statResult : Option Nat

/-- The value of a settled `#reloadModule` promise:
`{ success, module }` or `{ success: false, error }`. -/
structure ReloadResult where
  success : Bool
  module : JSValue
  errorMsg : String
deriving Repr

/-- `#reloadModule(filePath)`: returns the result, the updated state and the
console-error lines emitted (empty when `silent`). -/
def reloadModule (st : DynreloadState) (p : String) (env : ReloadEnv) :
    ReloadResult × DynreloadState × List String :=
  match tryImportModule env.importOutcome with
  | Except.error msg =>
    (⟨false, JSValue.undef, msg⟩, st,
      if st.silent then []
      else ["Invalid module in " ++ p ++ ". Keeping previous version.", msg])
  | Except.ok newModule =>
    match env.statResult with
    | none =>
      (⟨false, JSValue.undef, "statSync threw"⟩, st,
        if st.silent then [] else ["Error reloading module " ++ p])
    | some mtime =>
      let info : ModuleInfo := ⟨newModule, mtime⟩
      (⟨true, newModule, ""⟩,
        { st with
            cache := mapSet st.cache p info,
            lastValidModules := mapSet st.lastValidModules p info },
        [])

/-! ### Dynreload: callbacks and watch teardown (lines 404–440) -/

/-- `setRouteUpdateCallback(filePath, callback)`. -/
def setRouteUpdateCallback (st : DynreloadState) (p : String) (cb : Nat) :
    DynreloadState :=
  { st with routeUpdateCallbacks := mapSet st.routeUpdateCallbacks p cb }

/-- `stopWatching(filePath)`: only when a watcher is registered for the path
does it close the watcher and delete the watcher and callback entries;
returns the new state and the list of watchers closed. -/
def stopWatching (st : DynreloadState) (p : String) :
    DynreloadState × List String :=
  if p ∈ st.watchedFiles then
    ({ st with
        watchedFiles := st.watchedFiles.filter (fun q => q ≠ p),
        routeUpdateCallbacks := mapDelete st.routeUpdateCallbacks p },
      [p])
  else (st, [])

/-- `stopWatchingAll()`. -/
def stopWatchingAll (st : DynreloadState) : DynreloadState × List String :=
  st.watchedFiles.foldl
    (fun acc p =>
      let r := stopWatching acc.1 p
      (r.1, acc.2 ++ r.2))
    (st, [])

/-- `Dynreload.cleanup()` (lines 434–440): stop all watchers, then clear
every table. -/
def dynreloadCleanup (st : DynreloadState) : DynreloadState × List String :=
  let r := stopWatchingAll st
  ({ r.1 with
      cache := [],
      routeUpdateCallbacks := [],
      lastValidModules := [],
      dependencyGraph := [] },
    r.2)

/-! ### Dynreload: `#findAffectedModules` (lines 160–174)

The source recurses on every module whose dependency list contains the
changed path, with no visited set; the JavaScript call stack is finite, so
the recursion is modelled with explicit fuel (`none` = the stack bound is
exceeded, i.e. the call throws a `RangeError` instead of returning a set). -/

/-- `Set.add` on the insertion-ordered JS `Set`. -/
def sinsert (x : String) (s : List String) : List String :=
  if x ∈ s then s else s ++ [x]

/-- `xs.forEach(m => acc.add(m))`. -/
def smerge (acc : List String) (xs : List String) : List String :=
  xs.foldl (fun a x => sinsert x a) acc

/-- The `for (const [modulePath, dependencies] of …entries())` loop inside
`#findAffectedModules`, carrying the set built so far; `findRec` is the
recursive call (one stack frame deeper). -/
def affectedLoop (findRec : String → Option (List String)) (changed : String) :
    List (String × List String) → List String → Option (List String)
  | [], acc => some acc
  | (m, deps) :: rest, acc =>
    if changed ∈ deps then
      match findRec m with
      | none => none
      | some indirect =>
        affectedLoop findRec changed rest (smerge (sinsert m acc) indirect)
    else affectedLoop findRec changed rest acc

/-- `#findAffectedModules(changedFilePath)` with an explicit stack bound. -/
def findAffectedModules (g : List (String × List String)) :
    Nat → String → Option (List String)
  | 0, _ => none
  | Nat.succ f, changed => affectedLoop (findAffectedModules g f) changed g [changed]

/-- `q` transitively depends on `p` through entries recorded in the
dependency graph: a nonempty chain of direct-dependency edges. -/
inductive Reaches (g : List (String × List String)) : String → String → Prop where
  | base {m : String} {deps : List String} {p : String} :
      (m, deps) ∈ g → p ∈ deps → Reaches g m p
  | step {m : String} {deps : List String} {q p : String} :
      (m, deps) ∈ g → q ∈ deps → Reaches g q p → Reaches g m p

/-- The dependency graph has no (recorded) dependency cycle. -/
def Acyclic (g : List (String × List String)) : Prop :=
  ∀ a : String, ¬ Reaches g a a

theorem mem_sinsert (q x : String) (s : List String) :
    q ∈ sinsert x s ↔ q = x ∨ q ∈ s := by
  by_cases h : x ∈ s
  · simp only [sinsert, if_pos h]
    constructor
    · exact fun hq => Or.inr hq
    · rintro (rfl | hq)
      · exact h
      · exact hq
  · simp only [sinsert, if_neg h, List.mem_append, List.mem_singleton]
    tauto

theorem mem_smerge (q : String) (acc xs : List String) :
    q ∈ smerge acc xs ↔ q ∈ acc ∨ q ∈ xs := by
  induction xs generalizing acc with
  | nil => simp [smerge]
  | cons x rest ih =>
    simp only [smerge, List.foldl_cons] at ih ⊢
    rw [ih (sinsert x acc), mem_sinsert]
    simp only [List.mem_cons]
    tauto

theorem reaches_snoc {g : List (String × List String)} {q m p : String}
    {deps : List String} (hqm : Reaches g q m) (hm : (m, deps) ∈ g)
    (hp : p ∈ deps) : Reaches g q p := by
  revert hm
  induction hqm with
  | base hmem hdep =>
    intro hm
    exact Reaches.step hmem hdep (Reaches.base hm hp)
  | step hmem hdep _ ih =>
    intro hm
    exact Reaches.step hmem hdep (ih hm)

theorem reaches_last {g : List (String × List String)} {q p : String}
    (h : Reaches g q p) :
    ∃ m deps, (m, deps) ∈ g ∧ p ∈ deps ∧ (q = m ∨ Reaches g q m) := by
  induction h with
  | base hmem hdep => exact ⟨_, _, hmem, hdep, Or.inl rfl⟩
  | step hmem hdep _ ih =>
    obtain ⟨m, deps, hm, hp, hqm⟩ := ih
    refine ⟨m, deps, hm, hp, Or.inr ?_⟩
    rcases hqm with rfl | hr
    · exact Reaches.base hmem hdep
    · exact Reaches.step hmem hdep hr

theorem affectedLoop_inner_some {findRec : String → Option (List String)}
    {c : String} {entries : List (String × List String)} :
    ∀ {acc S : List String}, affectedLoop findRec c entries acc = some S →
    ∀ m deps, (m, deps) ∈ entries → c ∈ deps →
      ∃ T, findRec m = some T := by
  induction entries with
  | nil =>
    intro acc S h m deps hmem
    simp at hmem
  | cons e rest ih =>
    obtain ⟨m0, deps0⟩ := e
    intro acc S h m deps hmem hc
    simp only [affectedLoop] at h
    rcases List.mem_cons.mp hmem with heq | htail
    · simp only [Prod.mk.injEq] at heq
      obtain ⟨rfl, rfl⟩ := heq
      rw [if_pos hc] at h
      cases hfa : findRec m with
      | none => rw [hfa] at h; exact absurd h (by simp)
      | some T => exact ⟨T, rfl⟩
    · by_cases hc0 : c ∈ deps0
      · rw [if_pos hc0] at h
        cases hfa : findRec m0 with
        | none => rw [hfa] at h; exact absurd h (by simp)
        | some T =>
          rw [hfa] at h
          exact ih h m deps htail hc
      · rw [if_neg hc0] at h
        exact ih h m deps htail hc

theorem affectedLoop_mem {findRec : String → Option (List String)}
    {c : String} {entries : List (String × List String)} :
    ∀ {acc S : List String}, affectedLoop findRec c entries acc = some S →
    ∀ q : String,
    (q ∈ S ↔ q ∈ acc ∨ ∃ m deps T, (m, deps) ∈ entries ∧ c ∈ deps ∧
      findRec m = some T ∧ (q = m ∨ q ∈ T)) := by
  induction entries with
  | nil =>
    intro acc S h q
    simp only [affectedLoop] at h
    obtain rfl : acc = S := by
      simpa using h
    simp
  | cons e rest ih =>
    obtain ⟨m0, deps0⟩ := e
    intro acc S h q
    simp only [affectedLoop] at h
    by_cases hc0 : c ∈ deps0
    · rw [if_pos hc0] at h
      cases hfa : findRec m0 with
      | none => rw [hfa] at h; exact absurd h (by simp)
      | some T =>
        rw [hfa] at h
        rw [ih h q, mem_smerge, mem_sinsert]
        constructor
        · rintro (((hqe | hacc) | hT) | ⟨m, deps, T', hmem, hc, hfa', hq⟩)
          · exact Or.inr ⟨m0, deps0, T, List.mem_cons_self _ _, hc0, hfa, Or.inl hqe⟩
          · exact Or.inl hacc
          · exact Or.inr ⟨m0, deps0, T, List.mem_cons_self _ _, hc0, hfa, Or.inr hT⟩
          · exact Or.inr ⟨m, deps, T', List.mem_cons_of_mem _ hmem, hc, hfa', hq⟩
        · rintro (hacc | ⟨m, deps, T', hmem, hc, hfa', hq⟩)
          · exact Or.inl (Or.inl (Or.inr hacc))
          · rcases List.mem_cons.mp hmem with heq | htail
            · simp only [Prod.mk.injEq] at heq
              obtain ⟨rfl, rfl⟩ := heq
              obtain rfl : T = T' := by
                have h2 := hfa.symm.trans hfa'
                simpa using h2
              rcases hq with rfl | hT
              · exact Or.inl (Or.inl (Or.inl rfl))
              · exact Or.inl (Or.inr hT)
            · exact Or.inr ⟨m, deps, T', htail, hc, hfa', hq⟩
    · rw [if_neg hc0] at h
      rw [ih h q]
      constructor
      · rintro (hacc | ⟨m, deps, T', hmem, hc, hfa', hq⟩)
        · exact Or.inl hacc
        · exact Or.inr ⟨m, deps, T', List.mem_cons_of_mem _ hmem, hc, hfa', hq⟩
      · rintro (hacc | ⟨m, deps, T', hmem, hc, hfa', hq⟩)
        · exact Or.inl hacc
        · rcases List.mem_cons.mp hmem with heq | htail
          · simp only [Prod.mk.injEq] at heq
            obtain ⟨rfl, rfl⟩ := heq
            exact absurd hc hc0
          · exact Or.inr ⟨m, deps, T', htail, hc, hfa', hq⟩

/-- Whenever `#findAffectedModules` returns a set at all, that set is exactly
the changed path plus the paths that transitively depend on it. -/
theorem findAffectedModules_mem {g : List (String × List String)} :
    ∀ {fuel : Nat} {p : String} {S : List String},
      findAffectedModules g fuel p = some S →
      ∀ q, q ∈ S ↔ q = p ∨ Reaches g q p := by
  intro fuel
  induction fuel with
  | zero => intro p S h; simp only [findAffectedModules] at h; simp at h
  | succ f ih =>
    intro p S h q
    simp only [findAffectedModules] at h
    rw [affectedLoop_mem h q]
    constructor
    · rintro (hq | ⟨m, deps, T, hmem, hdep, hfa, hqm⟩)
      · exact Or.inl (List.mem_singleton.mp hq)
      · refine Or.inr ?_
        rcases hqm with rfl | hT
        · exact Reaches.base hmem hdep
        · rcases (ih hfa q).mp hT with rfl | hr
          · exact Reaches.base hmem hdep
          · exact reaches_snoc hr hmem hdep
    · rintro (rfl | hr)
      · exact Or.inl (List.mem_singleton.mpr rfl)
      · obtain ⟨m, deps, hmem, hdep, hqm⟩ := reaches_last hr
        obtain ⟨T, hfa⟩ := affectedLoop_inner_some h m deps hmem hdep
        refine Or.inr ⟨m, deps, T, hmem, hdep, hfa, ?_⟩
        rcases hqm with rfl | hq
        · exact Or.inl rfl
        · exact Or.inr ((ih hfa q).mpr (Or.inr hq))

theorem affectedLoop_isSome {findRec : String → Option (List String)}
    {c : String} :
    ∀ {entries : List (String × List String)},
    (∀ m deps, (m, deps) ∈ entries → c ∈ deps →
      (findRec m).isSome) →
    ∀ acc, (affectedLoop findRec c entries acc).isSome := by
  intro entries
  induction entries with
  | nil =>
    intro hin acc
    simp [affectedLoop]
  | cons e rest ih =>
    obtain ⟨m0, deps0⟩ := e
    intro hin acc
    simp only [affectedLoop]
    by_cases hc0 : c ∈ deps0
    · rw [if_pos hc0]
      cases hfa : findRec m0 with
      | none =>
        have hs := hin m0 deps0 (List.mem_cons_self _ _) hc0
        rw [hfa] at hs
        exact absurd hs (by simp)
      | some T =>
        exact ih (fun m deps hm hc => hin m deps (List.mem_cons_of_mem _ hm) hc) _
    · rw [if_neg hc0]
      exact ih (fun m deps hm hc => hin m deps (List.mem_cons_of_mem _ hm) hc) acc

/-- Key counting measure for termination on acyclic graphs: the number of
graph keys that transitively depend on `p`. -/
theorem findAffectedModules_isSome_of_measure {g : List (String × List String)}
    (hacyc : Acyclic g) :
    ∀ (fuel : Nat) (p : String),
      {k : String | k ∈ g.map Prod.fst ∧ Reaches g k p}.ncard < fuel →
      (findAffectedModules g fuel p).isSome := by
  intro fuel
  induction fuel with
  | zero => intro p h; exact absurd h (by simp)
  | succ f ih =>
    intro p hcard
    simp only [findAffectedModules]
    refine affectedLoop_isSome (fun m deps hmem hdep => ih m ?_) [p]
    have hfin : {k : String | k ∈ g.map Prod.fst ∧ Reaches g k p}.Finite :=
      Set.Finite.subset (List.finite_toSet (g.map Prod.fst))
        (fun k hk => hk.1)
    have hsub : {k : String | k ∈ g.map Prod.fst ∧ Reaches g k m} ⊂
        {k : String | k ∈ g.map Prod.fst ∧ Reaches g k p} := by
      constructor
      · intro k hk
        exact ⟨hk.1, reaches_snoc hk.2 hmem hdep⟩
      · intro hss
        have hmP : m ∈ {k : String | k ∈ g.map Prod.fst ∧ Reaches g k p} :=
          ⟨List.mem_map.mpr ⟨(m, deps), hmem, rfl⟩, Reaches.base hmem hdep⟩
        have hmM : m ∈ {k : String | k ∈ g.map Prod.fst ∧ Reaches g k m} :=
          hss hmP
        exact hacyc m hmM.2
    have hlt : {k : String | k ∈ g.map Prod.fst ∧ Reaches g k m}.ncard <
        {k : String | k ∈ g.map Prod.fst ∧ Reaches g k p}.ncard :=
      Set.ncard_lt_ncard hsub hfin
    omega

/-! ### DynExpress: port negotiation (`#isPortAvailable`, `#findAvailablePort`,
lines 224–260 of `dynexpress.mjs`)

The transient bind probe is an environment predicate `free`; the function
returns its result together with the list of ports actually probed. -/

def invalidPortMessage : String :=
  "Port must be a number between 1024 and 65535"

def portExhaustedMessage (maxAttempts : Nat) (startPort : Int) : String :=
  "No available port found after " ++ toString maxAttempts ++
    " attempts starting from " ++ toString startPort

/-- The `for (let i = 0; i < maxAttempts; i++)` probe loop. -/
def probeLoop (free : Int → Bool) (base : Int) (msg : String) :
    Nat → Nat → Except String Int × List Int
  | _, 0 => (Except.error msg, [])
  | i, Nat.succ k =>
    let port := base + (i : Int)
    if free port then (Except.ok port, [port])
    else
      let r := probeLoop free base msg (i + 1) k
      (r.1, port :: r.2)

/-- `#findAvailablePort(startPort, maxAttempts)`: `parseInt` of a numeric
port is the port itself, so the range test comes first; the second component
is the list of ports probed. -/
def findAvailablePort (free : Int → Bool) (startPort : Int) (maxAttempts : Nat) :
    Except String Int × List Int :=
  if startPort < 1024 ∨ startPort > 65535 then
    (Except.error invalidPortMessage, [])
  else probeLoop free startPort (portExhaustedMessage maxAttempts startPort) 0 maxAttempts

theorem probeLoop_ok (free : Int → Bool) (base : Int) (msg : String) :
    ∀ (k i j : Nat), j < k → free (base + ((i + j : Nat) : Int)) = true →
      (∀ l : Nat, l < j → free (base + ((i + l : Nat) : Int)) = false) →
      (probeLoop free base msg i k).1 = Except.ok (base + ((i + j : Nat) : Int)) := by
  intro k
  induction k with
  | zero => intro i j hj; omega
  | succ k ih =>
    intro i j hj hfree hmin
    by_cases h0 : free (base + (i : Int)) = true
    · have hj0 : j = 0 := by
        by_contra hne
        have hc := hmin 0 (Nat.pos_of_ne_zero hne)
        rw [Nat.add_zero] at hc
        rw [hc] at h0
        exact absurd h0 (by decide)
      subst hj0
      simp only [probeLoop, h0, if_true]
      rw [Nat.add_zero]
    · have h0' : free (base + (i : Int)) = false := by
        simpa using h0
      obtain ⟨j', rfl⟩ : ∃ j', j = j' + 1 := by
        rcases j with _ | j'
        · rw [Nat.add_zero] at hfree
          rw [hfree] at h0'
          exact absurd h0' (by decide)
        · exact ⟨j', rfl⟩
      have harith : i + 1 + j' = i + (j' + 1) := by omega
      have hrec := ih (i + 1) j' (by omega)
        (by rw [harith]; exact hfree)
        (by
          intro l hl
          have harith' : i + 1 + l = i + (l + 1) := by omega
          rw [harith']
          exact hmin (l + 1) (by omega))
      simp only [probeLoop, h0', if_false]
      rw [← harith]
      exact hrec

theorem probeLoop_exhausted (free : Int → Bool) (base : Int) (msg : String) :
    ∀ (k i : Nat), (∀ j : Nat, j < k → free (base + ((i + j : Nat) : Int)) = false) →
      (probeLoop free base msg i k).1 = Except.error msg := by
  intro k
  induction k with
  | zero => intro i _; rfl
  | succ k ih =>
    intro i hall
    have h0 : free (base + (i : Int)) = false := by
      have hc := hall 0 (by omega)
      rw [Nat.add_zero] at hc
      exact hc
    simp only [probeLoop, h0, if_false]
    exact ih (i + 1) (by
      intro j hj
      have harith : i + 1 + j = i + (j + 1) := by omega
      rw [harith]
      exact hall (j + 1) (by omega))

/-! ### DynExpress: the Express application object and `#setupRoutes`
(lines 186–216 of `dynexpress.mjs`)

An `express()` application exposes a registration function `app[m]` exactly
for the lower-case member names below (the standard verbs the library
mounts); `#setupRoutes` mutates the application in place and may throw
mid-loop, so it returns the application as mutated so far together with the
thrown message, if any. -/

/-- Member names `m` of an Express application for which `typeof app[m]`
is `"function"` (route registration). -/
def expressMethods : List String :=
  ["get", "post", "put", "delete", "patch", "options", "head", "all"]

/-- The observable route-registration state of one Express application:
the route layers bound so far, in order — lower-cased method, the `path`
value passed, and whether a middleware function was attached. -/
structure App where
  boundRoutes : List (String × JSValue × Bool)
deriving Repr

/-- `app[methodLower](routePath, …)` appends a route layer. -/
def bindRouteLayer (app : App) (ml : String) (routePath : JSValue) (mw : Bool) :
    App :=
  ⟨app.boundRoutes ++ [(ml, routePath, mw)]⟩

/-- The `routes.forEach(...)` body of `#setupRoutes`: stops at the first
throw, keeping the layers already registered. -/
def setupRoutesLoop (app : App) : List JSValue → App × Option String
  | [] => (app, none)
  | r :: rest =>
    let method := getField r "method"
    let routePath := getField r "path"
    let handler := getField r "handler"
    if ¬ (truthy method = true ∧ truthy routePath = true ∧ truthy handler = true) then
      (app, some "Invalid route configuration")
    else
      match jsToLower method with
      | none => (app, some "TypeError: method.toLowerCase is not a function")
      | some ml =>
        if ml ∈ expressMethods then
          let mw := truthy (getField r "middleware") = true ∧
            jsTypeof (getField r "middleware") = "function"
          setupRoutesLoop (bindRouteLayer app ml routePath (decide mw)) rest
        else (app, some ("Unsupported HTTP method: " ++ asString method))

/-- `#setupRoutes(app, routes)`. -/
def setupRoutes (app : App) (routes : JSValue) : App × Option String :=
  match routes with
  | JSValue.arr rs => setupRoutesLoop app rs
  | _ => (app, some "Routes must be an array")

/-! ### DynExpress: `#validateRouters` (lines 103–140) -/

/-- The per-element check of case 1 of `#validateRouters`:
`route && typeof route === "object"` plus the three `typeof` tests. -/
def isRouteObject (r : JSValue) : Bool :=
  truthy r &&
  (jsTypeof r = "object") &&
  (jsTypeof (getField r "method") = "string") &&
  (jsTypeof (getField r "path") = "string") &&
  (jsTypeof (getField r "handler") = "function")

/-- Result of `#validateRouters`: an inline descriptor list or a file path. -/
inductive RoutersKind where
  | array : List JSValue → RoutersKind
  | file : String → RoutersKind
deriving Repr

/-- `#validateRouters(routers)`; `path.extname` membership in
`{.js, .mjs}` is rendered as the corresponding suffix test, and
`fs.existsSync` is the environment predicate `fileExists`. -/
def validateRouters (fileExists : String → Bool) (routers : JSValue) :
    Except String RoutersKind :=
  match routers with
  | JSValue.arr rs =>
    if rs.all isRouteObject then Except.ok (RoutersKind.array rs)
    else Except.error "Each route must have method, path, and handler properties"
  | JSValue.strV s =>
    if ¬ (s.endsWith ".js" = true ∨ s.endsWith ".mjs" = true) then
      Except.error "Router file must have .js or .mjs extension"
    else if ¬ fileExists s = true then
      Except.error ("Router file not found: " ++ s)
    else Except.ok (RoutersKind.file s)
  | _ =>
    Except.error "Routers must be an array of route objects or a valid .js/.mjs file path"

/-! ### DynExpress: instances and `newServer` (lines 293–379) -/

/-- One entry of the `#instances` map (fields the claims observe; the
timestamps and directory options carry no logic). -/
structure Instance where
  app : App
  routers : JSValue
  port : Int
  watchFile : Bool
  launch : JSValue
  moduleLoad : Option JSValue
deriving Repr

/-- The argument object of `newServer` (static directories and view paths
are configuration passthrough with no observable effect here). -/
structure ServerConfig where
  name : JSValue
  routers : JSValue
  port : Int
  watchFile : Bool
  launch : JSValue

/-- External effects consumed by one `newServer` call: file existence for
validation, the settled result of `Dynreload.preload`, the port-probe
predicate, and the error (if any) of `app.listen` on a given port. -/
structure NewServerEnv where
  fileExists : String → Bool
  preloadResult : Except String JSValue
  free : Int → Bool
  listenError : Int → Option String

/-- The observable outcome of one `newServer` call: its settled value, the
instance registry afterwards, the ports probed transiently, the listening
sockets created, and the paths on which hot-reload watching was started. -/
structure NewServerOutcome where
  result : Except String String
  instances : List (String × Instance)
  probedPorts : List Int
  startedPorts : List Int
  watchStarted : List String
deriving Repr

/-- `http://localhost:${port}/`. -/
def urlOf (port : Int) : String :=
  "http://localhost:" ++ toString port ++ "/"

/-- Lines 325–331: extraction of the route value from a preloaded module
under a string `launch` selector — a missing property is an error here. -/
def extractRoutesAtCreation (launch : JSValue) (moduleLoad : JSValue) :
    Except String JSValue :=
  if truthy launch = true ∧ jsTypeof launch = "string" then
    if ¬ truthy (getField moduleLoad (asString launch)) = true then
      Except.error ("Property " ++ asString launch ++ " not found in router module")
    else Except.ok (getField moduleLoad (asString launch))
  else Except.ok moduleLoad

/-- The route-loading step of `newServer` (lines 319–336): either the
validated inline array, or the preloaded module filtered through the
`launch` selector, paired with the module stored as `moduleLoad`. -/
def loadRoutes (cfg : ServerConfig) (env : NewServerEnv) :
    RoutersKind → Except String (JSValue × Option JSValue)
  | RoutersKind.file _ =>
    match env.preloadResult with
    | Except.error e => Except.error e
    | Except.ok m =>
      match extractRoutesAtCreation cfg.launch m with
      | Except.error e => Except.error e
      | Except.ok r => Except.ok (r, some m)
  | RoutersKind.array v => Except.ok (JSValue.arr v, none)

/-- `newServer(config)` as a state transition on the `#instances` map. -/
def newServer (insts : List (String × Instance)) (cfg : ServerConfig)
    (env : NewServerEnv) : NewServerOutcome :=
  if ¬ (truthy cfg.name = true ∧ jsTypeof cfg.name = "string") then
    ⟨Except.error "Server name is required and must be a string", insts, [], [], []⟩
  else
    match mapGet insts (asString cfg.name) with
    | some inst => ⟨Except.ok (urlOf inst.port), insts, [], [], []⟩
    | none =>
      match validateRouters env.fileExists cfg.routers with
      | Except.error e => ⟨Except.error e, insts, [], [], []⟩
      | Except.ok kind =>
        match loadRoutes cfg env kind with
        | Except.error e => ⟨Except.error e, insts, [], [], []⟩
        | Except.ok (appRoutes, moduleLoad) =>
          match findAvailablePort env.free cfg.port 10 with
          | (Except.error e, probed) => ⟨Except.error e, insts, probed, [], []⟩
          | (Except.ok availablePort, probed) =>
            match setupRoutes ⟨[]⟩ appRoutes with
            | (_, some e) => ⟨Except.error e, insts, probed, [], []⟩
            | (app, none) =>
              match env.listenError availablePort with
              | some e => ⟨Except.error e, insts, probed, [], []⟩
              | none =>
                ⟨Except.ok (urlOf availablePort),
                 mapSet insts (asString cfg.name)
                   ⟨app, cfg.routers, availablePort, cfg.watchFile, cfg.launch, moduleLoad⟩,
                 probed, [availablePort],
                 match kind with
                 | RoutersKind.file p => if cfg.watchFile then [p] else []
                 | RoutersKind.array _ => []⟩

/-! ### DynExpress: the hot-reload route-update callback
(`#setupHotReloading`, lines 389–431) -/

/-- Lines 404–408: route extraction inside the reload callback — a missing
`launch` property falls back to the whole module (`newRoutes[launch] ||
newRoutes`). -/
def extractRoutesAtReload (launch : JSValue) (newRoutes : JSValue) : JSValue :=
  if truthy launch = true ∧ jsTypeof launch = "string" then
    if truthy (getField newRoutes (asString launch)) = true then
      getField newRoutes (asString launch)
    else newRoutes
  else newRoutes

/-- The callback registered via `setRouteUpdateCallback`: updates the stored
module, clears the app's route layers, re-runs `#setupRoutes` (a throw is
caught and only logged — the partially rebuilt app remains), and returns
the registry plus the swallowed error, if any. -/
def routeUpdateCallback (insts : List (String × Instance)) (serverName : String)
    (launch : JSValue) (newRoutes : JSValue) :
    List (String × Instance) × Option String :=
  match mapGet insts serverName with
  | none => (insts, none)
  | some inst =>
    let routes := extractRoutesAtReload launch newRoutes
    let sr := setupRoutes ⟨[]⟩ routes
    (mapSet insts serverName
      { inst with moduleLoad := some newRoutes, app := sr.1 }, sr.2)

/-! ### DynExpress: `addRoute` (lines 531–564) -/

/-- `addRoute(serverName, routeConfig)`: parameter validation runs before
the instance lookup; an unsupported (string) method reaches
`instance.app[methodLower](…)`, which is `undefined` and throws a
`TypeError` at bind time. -/
def addRoute (insts : List (String × Instance)) (serverName : String)
    (d : JSValue) : Except String (List (String × Instance)) :=
  let method := getField d "method"
  let routePath := getField d "path"
  let handler := getField d "handler"
  if ¬ (truthy method = true ∧ jsTypeof method = "string") then
    Except.error "Route method is required and must be a string"
  else if ¬ (truthy routePath = true ∧ jsTypeof routePath = "string") then
    Except.error "Route path is required and must be a string"
  else if ¬ (truthy handler = true ∧ jsTypeof handler = "function") then
    Except.error "Route handler is required and must be a function"
  else
    match mapGet insts serverName with
    | none => Except.error ("Server " ++ serverName ++ " not found")
    | some inst =>
      let ml := lowerString (asString method)
      if ml ∈ expressMethods then
        let mw := truthy (getField d "middleware") = true ∧
          jsTypeof (getField d "middleware") = "function"
        Except.ok (mapSet insts serverName
          { inst with app := bindRouteLayer inst.app ml routePath (decide mw) })
      else Except.error ("TypeError: app." ++ ml ++ " is not a function")

/-! ### DynExpress: `stopServer` (lines 466–488) and `cleanup` (442–457) -/

/-- `stopServer(serverName)`: the watcher teardown happens before the
socket close; on a close error (`closeError name = some e`) the entry is
not removed.  Returns (settled result, registry, dynreload state, watchers
closed). -/
def stopServer (insts : List (String × Instance)) (dyn : DynreloadState)
    (serverName : String) (closeError : String → Option String) :
    Except String Bool × List (String × Instance) × DynreloadState × List String :=
  match mapGet insts serverName with
  | none => (Except.error ("Server " ++ serverName ++ " not found"), insts, dyn, [])
  | some inst =>
    let dynr :=
      if inst.watchFile = true ∧ jsTypeof inst.routers = "string" then
        stopWatching dyn (asString inst.routers)
      else (dyn, [])
    match closeError serverName with
    | some e => (Except.error e, insts, dynr.1, dynr.2)
    | none => (Except.ok true, mapDelete insts serverName, dynr.1, dynr.2)

/-- Accumulator of `cleanup`: registry, dynreload state, stop errors
collected by the per-server `.catch`, watchers closed. -/
structure CleanupAcc where
  instances : List (String × Instance)
  dyn : DynreloadState
  stopErrors : List String
  closed : List String
deriving Repr

/-- One `this.stopServer(name).catch(…)` of `cleanup`. -/
def cleanupStep (closeError : String → Option String) (acc : CleanupAcc)
    (nm : String) : CleanupAcc :=
  let r := stopServer acc.instances acc.dyn nm closeError
  match r.1 with
  | Except.error e =>
    ⟨r.2.1, r.2.2.1, acc.stopErrors ++ [e], acc.closed ++ r.2.2.2⟩
  | Except.ok _ =>
    ⟨r.2.1, r.2.2.1, acc.stopErrors, acc.closed ++ r.2.2.2⟩

/-- `DynExpress.cleanup()`: stop every instance named in the registry
snapshot, each failure caught and collected, then `Dynreload.cleanup()`. -/
def cleanup (insts : List (String × Instance)) (dyn : DynreloadState)
    (closeError : String → Option String) : CleanupAcc :=
  let folded := (insts.map Prod.fst).foldl (cleanupStep closeError) ⟨insts, dyn, [], []⟩
  let dc := dynreloadCleanup folded.dyn
  ⟨folded.instances, dc.1, folded.stopErrors, folded.closed ++ dc.2⟩

/-! ## Claim theorems -/

/-! ### C1 -/

def c1Path : String := "/routes.mjs"

def c1OldInfo : ModuleInfo := ⟨JSValue.arr [], 0⟩

def c1State : DynreloadState :=
  ⟨true, [(c1Path, c1OldInfo)], [], [], [(c1Path, c1OldInfo)], []⟩

/-- An import result that is an array but not a structurally valid route
list (its single element has no method, path or handler). -/
def c1BadRoutes : JSValue := JSValue.arr [JSValue.obj []]

def c1Env : ReloadEnv := ⟨ImportOutcome.loaded c1BadRoutes, some 1⟩

/-- Claim C1, counterexample: a re-execution result that is a structurally
invalid route list does not count as a failure — `#reloadModule` reports
success and overwrites the last-known-good artifact with it (the structural
validator `#validateRouteStructure` is never invoked on reload results). -/
theorem reloadModule_invalid_routes_overwrite_cex :
    validateRouteStructure c1BadRoutes = false ∧
    (reloadModule c1State c1Path c1Env).1.success = true ∧
    mapGet c1State.lastValidModules c1Path = some c1OldInfo ∧
    mapGet (reloadModule c1State c1Path c1Env).2.1.lastValidModules c1Path =
      some ⟨c1BadRoutes, 1⟩ ∧
    c1OldInfo ≠ (⟨c1BadRoutes, 1⟩ : ModuleInfo) :=
  ⟨rfl, rfl, rfl, rfl, fun h => by cases h⟩

/-- Claim C1, amended: whenever the re-execution of a tracked path fails —
the dynamic import throws (parse or execution failure) or the subsequent
`statSync` throws — `#reloadModule` returns a failure indicator instead of
throwing, leaves the whole reloader state (in particular the last-known-good
artifact) unchanged, and reports the failure on the console unless silent;
a structurally invalid route list, however, is accepted as success and does
overwrite the last-known-good artifact. -/
theorem reloadModule_failure_keeps_last_valid (st : DynreloadState) (p : String)
    (env : ReloadEnv)
    (h : (∃ msg, tryImportModule env.importOutcome = Except.error msg) ∨
      env.statResult = none) :
    (reloadModule st p env).1.success = false ∧
    (reloadModule st p env).2.1 = st ∧
    (st.silent = false → (reloadModule st p env).2.2 ≠ []) := by
  rcases h with ⟨msg, hmsg⟩ | hstat
  · unfold reloadModule
    rw [hmsg]
    refine ⟨rfl, rfl, fun hs => ?_⟩
    rw [hs]
    simp
  · unfold reloadModule
    cases htry : tryImportModule env.importOutcome with
    | error msg =>
      refine ⟨rfl, rfl, fun hs => ?_⟩
      rw [hs]
      simp
    | ok m =>
      rw [hstat]
      refine ⟨rfl, rfl, fun hs => ?_⟩
      rw [hs]
      simp

def c1wState : DynreloadState :=
  ⟨false, [], [], [], [("/a.mjs", ⟨JSValue.arr [], 0⟩)], []⟩

def c1wEnv : ReloadEnv := ⟨ImportOutcome.threw "SyntaxError", some 0⟩

/-- Witness for the amended C1 theorem at a concrete failing import. -/
theorem reloadModule_failure_keeps_last_valid_witness :
    ((∃ msg, tryImportModule c1wEnv.importOutcome = Except.error msg) ∨
      c1wEnv.statResult = none) ∧
    ((reloadModule c1wState "/a.mjs" c1wEnv).1.success = false ∧
     (reloadModule c1wState "/a.mjs" c1wEnv).2.1 = c1wState ∧
     (c1wState.silent = false → (reloadModule c1wState "/a.mjs" c1wEnv).2.2 ≠ [])) :=
  ⟨Or.inl ⟨"SyntaxError", rfl⟩,
   reloadModule_failure_keeps_last_valid c1wState "/a.mjs" c1wEnv
     (Or.inl ⟨"SyntaxError", rfl⟩)⟩

/-! ### C9 -/

def c9State : DynreloadState := ⟨true, [], [], [("/r.mjs", 7)], [], []⟩

/-- Claim C9, counterexample: in a state where a route-update callback is
registered for a path that is not currently watched (reachable via
`setRouteUpdateCallback`, or when `watchFile` failed before storing the
watcher), `stopWatching` is a no-op and the callback is NOT removed. -/
theorem stopWatching_leaves_callback_cex :
    (stopWatching c9State "/r.mjs").1.routeUpdateCallbacks = [("/r.mjs", 7)] ∧
    mapGet (stopWatching c9State "/r.mjs").1.routeUpdateCallbacks "/r.mjs" = some 7 :=
  ⟨rfl, rfl⟩

/-- Claim C9, amended: when the path is currently watched, `stopWatching`
closes and removes the watcher and removes the registered route-update
callback; when it is not watched, the call is a no-op (closing nothing),
and in particular a callback registered for an unwatched path survives. -/
theorem stopWatching_spec (st : DynreloadState) (p : String) :
    (p ∈ st.watchedFiles →
      (stopWatching st p).1.watchedFiles = st.watchedFiles.filter (fun q => q ≠ p) ∧
      p ∉ (stopWatching st p).1.watchedFiles ∧
      mapGet (stopWatching st p).1.routeUpdateCallbacks p = none ∧
      (stopWatching st p).2 = [p]) ∧
    (p ∉ st.watchedFiles → stopWatching st p = (st, [])) := by
  constructor
  · intro hw
    unfold stopWatching
    rw [if_pos hw]
    refine ⟨rfl, ?_, ?_, rfl⟩
    · simp
    · exact mapGet_mapDelete_self st.routeUpdateCallbacks p
  · intro hw
    unfold stopWatching
    rw [if_neg hw]

def c9wState : DynreloadState := ⟨true, [], ["/r.mjs"], [("/r.mjs", 7)], [], []⟩

/-- Witness for the amended C9 theorem at a concrete watched state. -/
theorem stopWatching_spec_witness :
    ("/r.mjs" ∈ c9wState.watchedFiles ∧
      (stopWatching c9wState "/r.mjs").1.watchedFiles =
        c9wState.watchedFiles.filter (fun q => q ≠ "/r.mjs") ∧
      "/r.mjs" ∉ (stopWatching c9wState "/r.mjs").1.watchedFiles ∧
      mapGet (stopWatching c9wState "/r.mjs").1.routeUpdateCallbacks "/r.mjs" = none ∧
      (stopWatching c9wState "/r.mjs").2 = ["/r.mjs"]) ∧
    ("/q.mjs" ∉ c9wState.watchedFiles ∧
      stopWatching c9wState "/q.mjs" = (c9wState, [])) :=
  ⟨⟨by decide, (stopWatching_spec c9wState "/r.mjs").1 (by decide)⟩,
   ⟨by decide, (stopWatching_spec c9wState "/q.mjs").2 (by decide)⟩⟩

/-! ### C10 -/

/-- Claim C10: under a string `launch` selector naming an export missing
from the module, creation (`newServer` via `extractRoutesAtCreation`)
rejects with the property-not-found error, while the hot-reload callback
falls back to binding the entire module (`newRoutes[launch] || newRoutes`)
instead of failing. -/
theorem launch_selector_fallback_spec (s : String) (M : JSValue) (hs : s ≠ "")
    (hmissing : truthy (getField M s) = false) :
    extractRoutesAtCreation (JSValue.strV s) M =
      Except.error ("Property " ++ s ++ " not found in router module") ∧
    extractRoutesAtReload (JSValue.strV s) M = M ∧
    (∀ insts nm inst, mapGet insts nm = some inst →
      routeUpdateCallback insts nm (JSValue.strV s) M =
        (mapSet insts nm
          { inst with moduleLoad := some M, app := (setupRoutes ⟨[]⟩ M).1 },
         (setupRoutes ⟨[]⟩ M).2)) ∧
    (∀ (insts : List (String × Instance)) (cfg : ServerConfig) (env : NewServerEnv),
      cfg.launch = JSValue.strV s →
      truthy cfg.name = true → jsTypeof cfg.name = "string" →
      mapGet insts (asString cfg.name) = none →
      (∃ f, validateRouters env.fileExists cfg.routers =
        Except.ok (RoutersKind.file f)) →
      env.preloadResult = Except.ok M →
      (newServer insts cfg env).result =
        Except.error ("Property " ++ s ++ " not found in router module")) := by
  have hstr : truthy (JSValue.strV s) = true := by
    simp [truthy, hs]
  have hcond : truthy (JSValue.strV s) = true ∧ jsTypeof (JSValue.strV s) = "string" :=
    ⟨hstr, rfl⟩
  have hg : ¬ truthy (getField M (asString (JSValue.strV s))) = true := by
    show ¬ truthy (getField M s) = true
    rw [hmissing]
    simp
  have hcrea : extractRoutesAtCreation (JSValue.strV s) M =
      Except.error ("Property " ++ s ++ " not found in router module") := by
    unfold extractRoutesAtCreation
    rw [if_pos hcond, if_pos hg]
    rfl
  have hrel : extractRoutesAtReload (JSValue.strV s) M = M := by
    unfold extractRoutesAtReload
    rw [if_pos hcond, if_neg hg]
  refine ⟨hcrea, hrel, ?_, ?_⟩
  · intro insts nm inst hget
    unfold routeUpdateCallback
    rw [hget, hrel]
  · intro insts cfg env hlaunch hn1 hn2 habsent hex hpre
    obtain ⟨f, hval⟩ := hex
    unfold newServer
    rw [if_neg (not_not_intro ⟨hn1, hn2⟩), habsent]
    simp only [loadRoutes, hval, hpre, hlaunch, hcrea]

def c10Module : JSValue := JSValue.obj [("other", JSValue.func 0)]

def c10Inst : Instance :=
  ⟨⟨[]⟩, JSValue.strV "/r.mjs", 3000, true, JSValue.strV "routes", some c10Module⟩

/-- Witness for C10 at a concrete module lacking the selected export. -/
theorem launch_selector_fallback_spec_witness :
    (("routes" : String) ≠ "" ∧ truthy (getField c10Module "routes") = false) ∧
    extractRoutesAtCreation (JSValue.strV "routes") c10Module =
      Except.error ("Property " ++ "routes" ++ " not found in router module") ∧
    extractRoutesAtReload (JSValue.strV "routes") c10Module = c10Module ∧
    routeUpdateCallback [("api", c10Inst)] "api" (JSValue.strV "routes") c10Module =
      (mapSet [("api", c10Inst)] "api"
        { c10Inst with
          moduleLoad := some c10Module
          app := (setupRoutes ⟨[]⟩ c10Module).1 },
       (setupRoutes ⟨[]⟩ c10Module).2) := by
  have h := launch_selector_fallback_spec "routes" c10Module (by decide) rfl
  exact ⟨⟨by decide, rfl⟩, h.1, h.2.1, h.2.2.1 [("api", c10Inst)] "api" c10Inst rfl⟩

/-! ### C2 -/

/-- Claim C2: for an in-range base port, `#findAvailablePort` returns the
first free port of the probe window `P, …, P+k-1` when one exists, rejects
with the PortExhausted error when every probe fails, and rejects with the
InvalidPort error — probing no port at all — when the base port is out of
range. -/
theorem findAvailablePort_spec (free : Int → Bool) (P : Int) (k : Nat) :
    (1024 ≤ P → P ≤ 65535 →
      ((∃ i : Nat, i < k ∧ free (P + (i : Int)) = true) →
        ∃ i : Nat, i < k ∧ free (P + (i : Int)) = true ∧
          (∀ j : Nat, j < i → free (P + (j : Int)) = false) ∧
          (findAvailablePort free P k).1 = Except.ok (P + (i : Int))) ∧
      ((∀ i : Nat, i < k → free (P + (i : Int)) = false) →
        (findAvailablePort free P k).1 =
          Except.error (portExhaustedMessage k P))) ∧
    (P < 1024 ∨ P > 65535 →
      findAvailablePort free P k = (Except.error invalidPortMessage, [])) := by
  constructor
  · intro h1 h2
    have hrange : ¬ (P < 1024 ∨ P > 65535) := by
      push_neg
      exact ⟨by omega, by omega⟩
    constructor
    · intro hex
      obtain ⟨w, hwk, hw⟩ := hex
      have hexist : ∃ i : Nat, free (P + (i : Int)) = true := ⟨w, hw⟩
      have hspec := Nat.find_spec hexist
      have hlt : Nat.find hexist < k :=
        Nat.lt_of_le_of_lt (Nat.find_min' hexist hw) hwk
      refine ⟨Nat.find hexist, hlt, hspec, ?_, ?_⟩
      · intro j hj
        have hmin := Nat.find_min hexist hj
        rcases Bool.eq_false_or_eq_true (free (P + (j : Int))) with hb | hb
        · exact absurd hb hmin
        · exact hb
      · unfold findAvailablePort
        rw [if_neg hrange]
        have hmain := probeLoop_ok free P (portExhaustedMessage k P) k 0
          (Nat.find hexist) hlt
          (by rw [Nat.zero_add]; exact hspec)
          (by
            intro l hl
            rw [Nat.zero_add]
            have hmin := Nat.find_min hexist hl
            rcases Bool.eq_false_or_eq_true (free (P + (l : Int))) with hb | hb
            · exact absurd hb hmin
            · exact hb)
        rw [Nat.zero_add] at hmain
        exact hmain
    · intro hall
      unfold findAvailablePort
      rw [if_neg hrange]
      exact probeLoop_exhausted free P (portExhaustedMessage k P) k 0
        (by
          intro j hj
          rw [Nat.zero_add]
          exact hall j hj)
  · intro hout
    unfold findAvailablePort
    rw [if_pos hout]

/-- Witness for C2: a window whose first free port is 1027, a fully
occupied window, and an out-of-range base port. -/
theorem findAvailablePort_spec_witness :
    ((∃ i : Nat, i < 10 ∧ (fun p => decide (p = 1027)) ((1025 : Int) + (i : Int)) = true ∧
        (∀ j : Nat, j < i → (fun p => decide (p = 1027)) ((1025 : Int) + (j : Int)) = false) ∧
        (findAvailablePort (fun p => decide (p = 1027)) 1025 10).1 =
          Except.ok ((1025 : Int) + (i : Int))) ∧
      (findAvailablePort (fun _ => false) 2000 5).1 =
        Except.error (portExhaustedMessage 5 2000) ∧
      findAvailablePort (fun _ => true) 70000 3 =
        (Except.error invalidPortMessage, [])) :=
  ⟨((findAvailablePort_spec (fun p => decide (p = 1027)) 1025 10).1
      (by norm_num) (by norm_num)).1 ⟨2, by norm_num, by norm_num⟩,
   ((findAvailablePort_spec (fun _ => false) 2000 5).1
      (by norm_num) (by norm_num)).2 (fun _ _ => rfl),
   (findAvailablePort_spec (fun _ => true) 70000 3).2 (by norm_num)⟩

/-! ### C4 -/

/-- A two-cycle: A and B each record the other as a dependency (arising
from mutual imports). -/
def cyclicGraph : List (String × List String) := [("A", ["B"]), ("B", ["A"])]

/-- Claim C4: on the cyclic graph `{A ↦ [B], B ↦ [A]}`,
`#findAffectedModules` recurses without a visited set and exceeds every
stack bound — for every fuel it fails to return a set (the JavaScript call
throws a `RangeError` instead of terminating with a finite set). -/
theorem findAffectedModules_cycle_diverges :
    ∀ fuel : Nat, findAffectedModules cyclicGraph fuel "A" = none ∧
      findAffectedModules cyclicGraph fuel "B" = none := by
  intro fuel
  induction fuel with
  | zero => exact ⟨rfl, rfl⟩
  | succ f ih =>
    constructor
    · show affectedLoop (findAffectedModules cyclicGraph f) "A" cyclicGraph ["A"] = none
      show affectedLoop (findAffectedModules cyclicGraph f) "A"
        [("A", ["B"]), ("B", ["A"])] ["A"] = none
      rw [affectedLoop, if_neg (by decide : ¬ ("A" : String) ∈ ["B"])]
      rw [affectedLoop, if_pos (by decide : ("A" : String) ∈ ["A"])]
      rw [ih.2]
    · show affectedLoop (findAffectedModules cyclicGraph f) "B"
        [("A", ["B"]), ("B", ["A"])] ["B"] = none
      rw [affectedLoop, if_pos (by decide : ("B" : String) ∈ ["B"])]
      rw [ih.1]

/-! ### C3 -/

theorem reach_measure_le_length (g : List (String × List String)) (p : String) :
    {k : String | k ∈ g.map Prod.fst ∧ Reaches g k p}.ncard ≤ g.length := by
  have hsub : {k : String | k ∈ g.map Prod.fst ∧ Reaches g k p} ⊆
      {k : String | k ∈ g.map Prod.fst} := fun k hk => hk.1
  have hfin : {k : String | k ∈ g.map Prod.fst}.Finite :=
    List.finite_toSet (g.map Prod.fst)
  have h1 := Set.ncard_le_ncard hsub hfin
  have h2 : {k : String | k ∈ g.map Prod.fst} = ↑(g.map Prod.fst).toFinset :=
    (List.coe_toFinset (g.map Prod.fst)).symm
  rw [h2, Set.ncard_coe_Finset] at h1
  have h3 : (g.map Prod.fst).toFinset.card ≤ (g.map Prod.fst).length :=
    (g.map Prod.fst).toFinset_card_le
  have h4 : (g.map Prod.fst).length = g.length := List.length_map g Prod.fst
  omega

/-- Claim C3: on every acyclic dependency graph and at every stack bound
exceeding the graph size, `#findAffectedModules p` returns a set, and that
set is exactly `p` itself plus every tracked path that transitively depends
on `p` (the fixed point of the dependents relation); the chain instances
`findAffected(C) = {A, B, C}` and `findAffected(A) = {A}` follow. -/
theorem findAffectedModules_acyclic_closure (g : List (String × List String))
    (hacyc : Acyclic g) (p : String) (fuel : Nat) (hf : g.length < fuel) :
    ∃ S, findAffectedModules g fuel p = some S ∧
      ∀ q, q ∈ S ↔ q = p ∨ Reaches g q p := by
  have hb := reach_measure_le_length g p
  have hsome := findAffectedModules_isSome_of_measure hacyc fuel p
    (lt_of_le_of_lt hb hf)
  obtain ⟨S, hS⟩ := Option.isSome_iff_exists.mp hsome
  exact ⟨S, hS, findAffectedModules_mem hS⟩

/-- The chain of the spec: A depends on B, B depends on C. -/
def chainGraph : List (String × List String) := [("A", ["B"]), ("B", ["C"])]

theorem chainGraph_reaches_cases {x y : String} (h : Reaches chainGraph x y) :
    (x = "A" ∧ (y = "B" ∨ y = "C")) ∨ (x = "B" ∧ y = "C") := by
  induction h with
  | base hmem hdep =>
    simp only [chainGraph, List.mem_cons, List.not_mem_nil, or_false,
      Prod.mk.injEq] at hmem
    rcases hmem with ⟨h1, h2⟩ | ⟨h1, h2⟩
    · subst h2
      simp only [List.mem_singleton] at hdep
      exact Or.inl ⟨h1, Or.inl hdep⟩
    · subst h2
      simp only [List.mem_singleton] at hdep
      exact Or.inr ⟨h1, hdep⟩
  | step hmem hdep _ ih =>
    simp only [chainGraph, List.mem_cons, List.not_mem_nil, or_false,
      Prod.mk.injEq] at hmem
    rcases hmem with ⟨h1, h2⟩ | ⟨h1, h2⟩
    · subst h2
      simp only [List.mem_singleton] at hdep
      subst hdep
      rcases ih with ⟨hbad, _⟩ | ⟨_, hy⟩
      · exact absurd hbad (by decide)
      · exact Or.inl ⟨h1, Or.inr hy⟩
    · subst h2
      simp only [List.mem_singleton] at hdep
      subst hdep
      rcases ih with ⟨hbad, _⟩ | ⟨hbad, _⟩
      · exact absurd hbad (by decide)
      · exact absurd hbad (by decide)

theorem chainGraph_acyclic : Acyclic chainGraph := by
  intro a ha
  rcases chainGraph_reaches_cases ha with ⟨h1, h2 | h2⟩ | ⟨h1, h2⟩
  · rw [h1] at h2
    exact absurd h2 (by decide)
  · rw [h1] at h2
    exact absurd h2 (by decide)
  · rw [h1] at h2
    exact absurd h2 (by decide)

/-- Witness for C3 on the chain A→B→C, at both ends of the chain. -/
theorem findAffectedModules_acyclic_closure_witness :
    (Acyclic chainGraph ∧ chainGraph.length < 3) ∧
    (∃ S, findAffectedModules chainGraph 3 "C" = some S ∧
      ∀ q, q ∈ S ↔ q = "C" ∨ Reaches chainGraph q "C") ∧
    (∃ S, findAffectedModules chainGraph 3 "A" = some S ∧
      ∀ q, q ∈ S ↔ q = "A" ∨ Reaches chainGraph q "A") :=
  ⟨⟨chainGraph_acyclic, by decide⟩,
   findAffectedModules_acyclic_closure chainGraph chainGraph_acyclic "C" 3 (by decide),
   findAffectedModules_acyclic_closure chainGraph chainGraph_acyclic "A" 3 (by decide)⟩

/-- Concrete evaluation corroborating the chain instances of the spec:
the affected set of C is {C, B, A} (insertion order), that of A is {A}. -/
theorem findAffectedModules_chain_values :
    findAffectedModules chainGraph 3 "C" = some ["C", "B", "A"] ∧
    findAffectedModules chainGraph 3 "A" = some ["A"] :=
  ⟨by decide, by decide⟩

/-! ### C7 -/

/-- Claim C7, counterexample: with no instance present at all and a
descriptor lacking a method, `addRoute` fails with the method-validation
error rather than the NotFound error — parameter validation precedes the
instance lookup. -/
theorem addRoute_validation_precedes_notfound_cex :
    addRoute [] "svc" (JSValue.obj []) =
      Except.error "Route method is required and must be a string" ∧
    ("Route method is required and must be a string" : String) ≠
      "Server " ++ "svc" ++ " not found" :=
  ⟨rfl, by decide⟩

/-- Claim C7, amended: `addRoute` validates the descriptor shape (truthy
string method, truthy string path, truthy function handler) before looking
the instance up, so a malformed descriptor yields the corresponding
validation error even when no instance named `n` exists; when the shape
checks pass, a missing instance yields the NotFound error; on an existing
instance, a supported method binds the route immediately onto the live
application object, while a string method that is not a supported verb
throws a `TypeError` at bind time (not a validation error). -/
theorem addRoute_spec (insts : List (String × Instance)) (nm : String)
    (d : JSValue) :
    (¬ (truthy (getField d "method") = true ∧
        jsTypeof (getField d "method") = "string") →
      addRoute insts nm d =
        Except.error "Route method is required and must be a string") ∧
    ((truthy (getField d "method") = true ∧
        jsTypeof (getField d "method") = "string") →
     (truthy (getField d "path") = true ∧
        jsTypeof (getField d "path") = "string") →
     (truthy (getField d "handler") = true ∧
        jsTypeof (getField d "handler") = "function") →
     ((mapGet insts nm = none →
        addRoute insts nm d = Except.error ("Server " ++ nm ++ " not found")) ∧
      (∀ inst ml mwv, mapGet insts nm = some inst →
        ml = lowerString (asString (getField d "method")) →
        mwv = decide (truthy (getField d "middleware") = true ∧
          jsTypeof (getField d "middleware") = "function") →
        ((ml ∈ expressMethods →
          addRoute insts nm d = Except.ok (mapSet insts nm { inst with app := bindRouteLayer inst.app ml (getField d "path") mwv })) ∧
         (ml ∉ expressMethods →
          addRoute insts nm d = Except.error
            ("TypeError: app." ++ ml ++ " is not a function")))))) := by
  constructor
  · intro h
    unfold addRoute
    rw [if_pos h]
  · intro hm hp hh
    constructor
    · intro hnone
      unfold addRoute
      rw [if_neg (not_not_intro hm), if_neg (not_not_intro hp),
        if_neg (not_not_intro hh), hnone]
    · intro inst ml mwv hsome hml hmwv
      subst hml
      subst hmwv
      constructor
      · intro hmem
        unfold addRoute
        simp only [if_neg (not_not_intro hm), if_neg (not_not_intro hp),
          if_neg (not_not_intro hh), hsome]
        rw [if_pos hmem]
      · intro hmem
        unfold addRoute
        simp only [if_neg (not_not_intro hm), if_neg (not_not_intro hp),
          if_neg (not_not_intro hh), hsome]
        rw [if_neg hmem]

def c7Inst : Instance := ⟨⟨[]⟩, JSValue.arr [], 3000, false, JSValue.boolV false, none⟩

def c7Desc : JSValue :=
  JSValue.obj [("method", JSValue.strV "GET"), ("path", JSValue.strV "/x"),
    ("handler", JSValue.func 0)]

/-- Witness for the amended C7 theorem: NotFound on a well-formed
descriptor with an absent instance, and an immediate bind on a present
one. -/
theorem addRoute_spec_witness :
    addRoute [] "svc2" c7Desc = Except.error ("Server " ++ "svc2" ++ " not found") ∧
    addRoute [("svc2", c7Inst)] "svc2" c7Desc = Except.ok
      (mapSet [("svc2", c7Inst)] "svc2" { c7Inst with app := bindRouteLayer c7Inst.app "get" (JSValue.strV "/x") false }) := by
  constructor
  · exact ((addRoute_spec [] "svc2" c7Desc).2 (by decide) (by decide) (by decide)).1 rfl
  · exact (((addRoute_spec [("svc2", c7Inst)] "svc2" c7Desc).2 (by decide) (by decide)
      (by decide)).2 c7Inst "get" false rfl (by decide) (by decide)).1 (by decide)

/-! ### C5 -/

theorem mapGet_eq_none_iff {β : Type} (m : List (String × β)) (k : String) :
    mapGet m k = none ↔ k ∉ m.map Prod.fst := by
  induction m with
  | nil => simp [mapGet]
  | cons hd tl ih =>
    obtain ⟨k', v⟩ := hd
    by_cases h : k' = k
    · subst h
      simp [mapGet]
    · simp [mapGet, h, ih, Ne.symm h]

theorem mapSet_map_fst {β : Type} (m : List (String × β)) (k : String) (v : β) :
    (mapSet m k v).map Prod.fst =
      if k ∈ m.map Prod.fst then m.map Prod.fst else m.map Prod.fst ++ [k] := by
  induction m with
  | nil => simp [mapSet]
  | cons hd tl ih =>
    obtain ⟨k', v'⟩ := hd
    by_cases h : k' = k
    · subst h
      simp [mapSet]
    · simp only [mapSet, if_neg h, List.map_cons, ih]
      by_cases hmem : k ∈ tl.map Prod.fst
      · rw [if_pos hmem, if_pos]
        simp [hmem]
      · rw [if_neg hmem, if_neg]
        · simp
        · simp only [List.mem_cons]
          push_neg
          exact ⟨Ne.symm h, hmem⟩

theorem mapSet_keys_nodup {β : Type} (m : List (String × β)) (k : String) (v : β)
    (h : (m.map Prod.fst).Nodup) : ((mapSet m k v).map Prod.fst).Nodup := by
  rw [mapSet_map_fst]
  by_cases hmem : k ∈ m.map Prod.fst
  · rw [if_pos hmem]
    exact h
  · rw [if_neg hmem]
    rw [List.nodup_append]
    exact ⟨h, List.nodup_singleton k, by simpa using hmem⟩

theorem newServer_existing {insts : List (String × Instance)} {cfg : ServerConfig}
    {env : NewServerEnv} {inst : Instance} (hn1 : truthy cfg.name = true)
    (hn2 : jsTypeof cfg.name = "string")
    (hget : mapGet insts (asString cfg.name) = some inst) :
    newServer insts cfg env = ⟨Except.ok (urlOf inst.port), insts, [], [], []⟩ := by
  unfold newServer
  rw [if_neg (not_not_intro ⟨hn1, hn2⟩), hget]

theorem newServer_shape (insts : List (String × Instance)) (cfg : ServerConfig)
    (env : NewServerEnv) :
    ((newServer insts cfg env).instances = insts ∧
     (newServer insts cfg env).startedPorts = [] ∧
     ∃ e, (newServer insts cfg env).result = Except.error e) ∨
    (truthy cfg.name = true ∧ jsTypeof cfg.name = "string" ∧
     ((∃ inst, mapGet insts (asString cfg.name) = some inst ∧
        newServer insts cfg env = ⟨Except.ok (urlOf inst.port), insts, [], [], []⟩) ∨
      (mapGet insts (asString cfg.name) = none ∧
       ∃ inst, (newServer insts cfg env).result = Except.ok (urlOf inst.port) ∧
         (newServer insts cfg env).instances = mapSet insts (asString cfg.name) inst ∧
         (newServer insts cfg env).startedPorts = [inst.port]))) := by
  by_cases hname : truthy cfg.name = true ∧ jsTypeof cfg.name = "string"
  case neg =>
    left
    unfold newServer
    rw [if_pos hname]
    exact ⟨rfl, rfl, _, rfl⟩
  case pos =>
    cases hget : mapGet insts (asString cfg.name) with
    | some inst =>
      right
      exact ⟨hname.1, hname.2,
        Or.inl ⟨inst, rfl, newServer_existing hname.1 hname.2 hget⟩⟩
    | none =>
      unfold newServer
      rw [if_neg (not_not_intro hname)]
      simp only [hget]
      split
      · left
        exact ⟨rfl, rfl, _, rfl⟩
      · split
        · left
          exact ⟨rfl, rfl, _, rfl⟩
        · split
          · left
            exact ⟨rfl, rfl, _, rfl⟩
          · split
            · left
              exact ⟨rfl, rfl, _, rfl⟩
            · split
              · left
                exact ⟨rfl, rfl, _, rfl⟩
              · right
                refine ⟨hname.1, hname.2, Or.inr ⟨by trivial, ?_⟩⟩
                exact ⟨⟨_, cfg.routers, _, cfg.watchFile, cfg.launch, _⟩, rfl, rfl, rfl⟩

/-- Claim C5: creating an instance under an already-registered name returns
the existing instance's address and leaves the registry, sockets and
watches untouched; hence a second `newServer` call with the same name
returns the same address as the first, creates no second listening socket,
and changes nothing; and `newServer` preserves key-uniqueness of the
registry, so at most one instance per name ever exists. -/
theorem newServer_unique_per_name (insts : List (String × Instance))
    (cfg : ServerConfig) (env env₂ : NewServerEnv) :
    (∀ inst, truthy cfg.name = true → jsTypeof cfg.name = "string" →
      mapGet insts (asString cfg.name) = some inst →
      newServer insts cfg env = ⟨Except.ok (urlOf inst.port), insts, [], [], []⟩) ∧
    (∀ u, (newServer insts cfg env).result = Except.ok u →
      newServer (newServer insts cfg env).instances cfg env₂ =
        ⟨Except.ok u, (newServer insts cfg env).instances, [], [], []⟩) ∧
    ((insts.map Prod.fst).Nodup →
      ((newServer insts cfg env).instances.map Prod.fst).Nodup) := by
  refine ⟨fun inst hn1 hn2 hget => newServer_existing hn1 hn2 hget, ?_, ?_⟩
  · intro u hu
    rcases newServer_shape insts cfg env with ⟨_, _, e, herr⟩ | ⟨hn1, hn2, hcase⟩
    · rw [herr] at hu
      cases hu
    · rcases hcase with ⟨inst, hget, heq⟩ | ⟨hnone, inst, hres, hinsts, _⟩
      · rw [heq] at hu ⊢
        obtain rfl : urlOf inst.port = u := by
          simpa using hu
        simpa using newServer_existing hn1 hn2 hget
      · rw [hres] at hu
        obtain rfl : urlOf inst.port = u := by
          simpa using hu
        rw [hinsts]
        exact newServer_existing hn1 hn2
          (mapGet_mapSet_self insts (asString cfg.name) inst)
  · intro hnd
    rcases newServer_shape insts cfg env with ⟨hinsts, _, _⟩ | ⟨_, _, hcase⟩
    · rw [hinsts]
      exact hnd
    · rcases hcase with ⟨inst, _, heq⟩ | ⟨_, inst, _, hinsts, _⟩
      · rw [heq]
        exact hnd
      · rw [hinsts]
        exact mapSet_keys_nodup insts (asString cfg.name) inst hnd

def c5Inst : Instance := ⟨⟨[]⟩, JSValue.arr [], 3000, false, JSValue.boolV false, none⟩

def c5Cfg : ServerConfig := ⟨JSValue.strV "api", JSValue.arr [], 3000, false, JSValue.boolV false⟩

def c5Env : NewServerEnv := ⟨fun _ => false, Except.error "unused", fun _ => true, fun _ => none⟩

/-- Witness for C5: a duplicate creation request against a concrete
registry returns the stored address and changes nothing, and key-uniqueness
is preserved. -/
theorem newServer_unique_per_name_witness :
    newServer [("api", c5Inst)] c5Cfg c5Env =
      ⟨Except.ok (urlOf 3000), [("api", c5Inst)], [], [], []⟩ ∧
    (([("api", c5Inst)].map Prod.fst).Nodup →
      ((newServer [("api", c5Inst)] c5Cfg c5Env).instances.map Prod.fst).Nodup) :=
  ⟨(newServer_unique_per_name [("api", c5Inst)] c5Cfg c5Env c5Env).1 c5Inst rfl rfl rfl,
   (newServer_unique_per_name [("api", c5Inst)] c5Cfg c5Env c5Env).2.2⟩

/-! ### C8 -/

def c8Route : JSValue :=
  JSValue.obj [("method", JSValue.strV "GET"), ("path", JSValue.strV "oops"),
    ("handler", JSValue.func 0)]

def c8Cfg : ServerConfig :=
  ⟨JSValue.strV "web", JSValue.arr [c8Route], 3000, false, JSValue.boolV false⟩

def c8Env : NewServerEnv :=
  ⟨fun _ => false, Except.error "unused", fun _ => true, fun _ => none⟩

/-- Claim C8, counterexample: a descriptor whose path is a string but not a
well-formed path pattern (it does not start with `/`) passes every check of
`#validateRouters` and `#setupRoutes`; creation succeeds and the route is
bound, rather than creation failing. -/
theorem newServer_binds_illformed_path_cex :
    (newServer [] c8Cfg c8Env).result = Except.ok (urlOf 3000) ∧
    (∃ inst, mapGet (newServer [] c8Cfg c8Env).instances "web" = some inst ∧
      inst.app.boundRoutes = [("get", JSValue.strV "oops", false)]) ∧
    jsStartsWith "oops" "/" = false :=
  ⟨rfl, ⟨_, rfl, rfl⟩, by decide⟩

theorem setupRoutesLoop_unsupported (mstr : String)
    (hnm : lowerString mstr ∉ expressMethods) :
    ∀ (rs : List JSValue) (r : JSValue) (app : App), r ∈ rs →
      getField r "method" = JSValue.strV mstr →
      ((setupRoutesLoop app rs).2).isSome = true := by
  intro rs
  induction rs with
  | nil =>
    intro r app hr
    simp at hr
  | cons r0 rest ih =>
    intro r app hr hm
    rcases List.mem_cons.mp hr with rfl | htail
    · simp only [setupRoutesLoop]
      by_cases hc : truthy (getField r "method") = true ∧
        truthy (getField r "path") = true ∧ truthy (getField r "handler") = true
      · rw [if_neg (not_not_intro hc), hm]
        simp only [jsToLower]
        rw [if_neg hnm]
        rfl
      · rw [if_pos hc]
        rfl
    · simp only [setupRoutesLoop]
      by_cases hc : truthy (getField r0 "method") = true ∧
        truthy (getField r0 "path") = true ∧ truthy (getField r0 "handler") = true
      · rw [if_neg (not_not_intro hc)]
        split
        · rfl
        · split
          · exact ih r _ htail hm
          · rfl
      · rw [if_pos hc]
        rfl

/-- Claim C8, amended: before any route is bound, `#validateRouters` checks
only the descriptor shape (truthy object, string method, string path,
function handler) — a list failing that check aborts creation with nothing
bound, probed or started; verb recognition is enforced only during binding,
where any `#setupRoutes` throw (in particular an unrecognised string verb,
which always causes one) still aborts creation with no instance stored and
no listening socket, although descriptors earlier in the list have already
been bound to the discarded application object; path well-formedness beyond
being a string is never validated (see the counterexample). -/
theorem newServer_route_validation_spec (insts : List (String × Instance))
    (cfg : ServerConfig) (env : NewServerEnv) (rs : List JSValue)
    (hn1 : truthy cfg.name = true) (hn2 : jsTypeof cfg.name = "string")
    (habsent : mapGet insts (asString cfg.name) = none)
    (hroutes : cfg.routers = JSValue.arr rs) :
    (rs.all isRouteObject = false →
      newServer insts cfg env =
        ⟨Except.error "Each route must have method, path, and handler properties",
         insts, [], [], []⟩) ∧
    (∀ e P probed, rs.all isRouteObject = true →
      findAvailablePort env.free cfg.port 10 = (Except.ok P, probed) →
      (setupRoutesLoop ⟨[]⟩ rs).2 = some e →
      newServer insts cfg env = ⟨Except.error e, insts, probed, [], []⟩) ∧
    (∀ (r : JSValue) (mstr : String) (app : App), r ∈ rs →
      getField r "method" = JSValue.strV mstr →
      lowerString mstr ∉ expressMethods →
      ((setupRoutesLoop app rs).2).isSome = true) := by
  refine ⟨?_, ?_, ?_⟩
  · intro hbad
    unfold newServer
    rw [if_neg (not_not_intro ⟨hn1, hn2⟩)]
    simp only [habsent, hroutes, validateRouters, hbad]
    rfl
  · intro e P probed hall hfp hsr
    unfold newServer
    rw [if_neg (not_not_intro ⟨hn1, hn2⟩)]
    simp only [habsent, hroutes, validateRouters, hall, if_true, loadRoutes, hfp,
      setupRoutes]
    cases hsl : setupRoutesLoop ⟨[]⟩ rs with
    | mk app0 r2 =>
      rw [hsl] at hsr
      simp only at hsr
      subst hsr
      rfl
  · intro r mstr app hr hm hnm
    exact setupRoutesLoop_unsupported mstr hnm rs r app hr hm

def c8wGood : JSValue :=
  JSValue.obj [("method", JSValue.strV "GET"), ("path", JSValue.strV "/a"),
    ("handler", JSValue.func 0)]

def c8wFoo : JSValue :=
  JSValue.obj [("method", JSValue.strV "FOO"), ("path", JSValue.strV "/b"),
    ("handler", JSValue.func 1)]

def c8wCfg : ServerConfig :=
  ⟨JSValue.strV "w2", JSValue.arr [c8wGood, c8wFoo], 4000, false, JSValue.boolV false⟩

def c8wBadCfg : ServerConfig :=
  ⟨JSValue.strV "w3", JSValue.arr [JSValue.obj []], 4000, false, JSValue.boolV false⟩

/-- Witness for the amended C8 theorem: a shape-invalid list aborts before
binding; an unsupported verb (`FOO`) after a valid `GET` descriptor throws
during binding and aborts creation with nothing stored or started. -/
theorem newServer_route_validation_spec_witness :
    newServer [] c8wBadCfg c8Env =
      ⟨Except.error "Each route must have method, path, and handler properties",
       [], [], [], []⟩ ∧
    newServer [] c8wCfg c8Env =
      ⟨Except.error ("Unsupported HTTP method: " ++ "FOO"), [], [4000], [], []⟩ ∧
    ((setupRoutesLoop ⟨[]⟩ [c8wGood, c8wFoo]).2).isSome = true := by
  refine ⟨?_, ?_, ?_⟩
  · exact (newServer_route_validation_spec [] c8wBadCfg c8Env [JSValue.obj []]
      (by decide) rfl rfl rfl).1 (by decide)
  · exact (newServer_route_validation_spec [] c8wCfg c8Env [c8wGood, c8wFoo]
      (by decide) rfl rfl rfl).2.1 ("Unsupported HTTP method: " ++ "FOO") 4000 [4000]
      (by decide) rfl (by decide)
  · exact (newServer_route_validation_spec [] c8wCfg c8Env [c8wGood, c8wFoo]
      (by decide) rfl rfl rfl).2.2 c8wFoo "FOO" ⟨[]⟩ (by simp [c8wFoo]) rfl (by decide)

/-! ### C6 -/

theorem stopWatching_watchedFiles (st : DynreloadState) (p : String) :
    (stopWatching st p).1.watchedFiles =
      if p ∈ st.watchedFiles then st.watchedFiles.filter (fun q => q ≠ p)
      else st.watchedFiles := by
  unfold stopWatching
  by_cases hp : p ∈ st.watchedFiles
  · rw [if_pos hp, if_pos hp]
  · rw [if_neg hp, if_neg hp]

theorem stopWatchingFold_watchedFiles :
    ∀ (l : List String) (acc : DynreloadState × List String),
      ((l.foldl
        (fun acc p =>
          let r := stopWatching acc.1 p
          (r.1, acc.2 ++ r.2)) acc).1).watchedFiles =
      acc.1.watchedFiles.filter (fun q => decide (q ∉ l)) := by
  intro l
  induction l with
  | nil =>
    intro acc
    simp
  | cons p l ih =>
    intro acc
    simp only [List.foldl_cons]
    rw [ih]
    rw [stopWatching_watchedFiles]
    by_cases hp : p ∈ acc.1.watchedFiles
    · rw [if_pos hp]
      rw [List.filter_filter]
      apply List.filter_congr
      intro q hq
      by_cases h1 : q = p <;> by_cases h2 : q ∈ l <;> simp [h1, h2]
    · rw [if_neg hp]
      apply List.filter_congr
      intro q hq
      have hqp : q ≠ p := fun he => hp (he ▸ hq)
      by_cases h2 : q ∈ l <;> simp [h2, hqp]

theorem stopWatchingAll_watchedFiles (st : DynreloadState) :
    (stopWatchingAll st).1.watchedFiles = [] := by
  unfold stopWatchingAll
  rw [stopWatchingFold_watchedFiles st.watchedFiles (st, [])]
  apply List.filter_eq_nil_iff.mpr
  intro a ha
  simp [ha]

theorem mapGet_isSome_of_mem_keys {β : Type} (m : List (String × β)) (nm : String)
    (h : nm ∈ m.map Prod.fst) : (mapGet m nm).isSome = true := by
  cases hg : mapGet m nm with
  | none => exact absurd h ((mapGet_eq_none_iff m nm).mp hg)
  | some v => rfl

theorem cleanupStep_spec (closeError : String → Option String) (acc : CleanupAcc)
    (nm : String) (inst : Instance)
    (hinst : mapGet acc.instances nm = some inst) :
    (closeError nm = none →
      (cleanupStep closeError acc nm).instances = mapDelete acc.instances nm ∧
      (cleanupStep closeError acc nm).stopErrors = acc.stopErrors) ∧
    (∀ e, closeError nm = some e →
      (cleanupStep closeError acc nm).instances = acc.instances ∧
      (cleanupStep closeError acc nm).stopErrors = acc.stopErrors ++ [e]) := by
  constructor
  · intro hce
    unfold cleanupStep stopServer
    simp only [hinst, hce]
    exact ⟨by first | rfl | trivial, by first | rfl | trivial⟩
  · intro e hce
    unfold cleanupStep stopServer
    simp only [hinst, hce]
    exact ⟨by first | rfl | trivial, by first | rfl | trivial⟩

theorem cleanupFold_stopErrors (closeError : String → Option String) :
    ∀ (names : List String) (acc : CleanupAcc),
      names.Nodup →
      (∀ nm ∈ names, (mapGet acc.instances nm).isSome = true) →
      (names.foldl (cleanupStep closeError) acc).stopErrors =
        acc.stopErrors ++ names.filterMap closeError := by
  intro names
  induction names with
  | nil =>
    intro acc _ _
    simp
  | cons nm rest ih =>
    intro acc hnd hpres
    have hsome := hpres nm (List.mem_cons_self _ _)
    obtain ⟨inst, hinst⟩ := Option.isSome_iff_exists.mp hsome
    have hstep := cleanupStep_spec closeError acc nm inst hinst
    simp only [List.foldl_cons]
    cases hce : closeError nm with
    | some e =>
      obtain ⟨hi, he⟩ := hstep.2 e hce
      have hpres' : ∀ nm' ∈ rest, (mapGet (cleanupStep closeError acc nm).instances nm').isSome = true := by
        intro nm' hnm'
        rw [hi]
        exact hpres nm' (List.mem_cons_of_mem _ hnm')
      rw [ih (cleanupStep closeError acc nm) (List.Nodup.of_cons hnd) hpres', he]
      simp [List.filterMap_cons, hce]
    | none =>
      obtain ⟨hi, he⟩ := hstep.1 hce
      have hpres' : ∀ nm' ∈ rest, (mapGet (cleanupStep closeError acc nm).instances nm').isSome = true := by
        intro nm' hnm'
        rw [hi]
        have hne : nm ≠ nm' := by
          intro he'
          subst he'
          exact (List.nodup_cons.mp hnd).1 hnm'
        rw [mapGet_mapDelete_ne acc.instances nm nm' hne]
        exact hpres nm' (List.mem_cons_of_mem _ hnm')
      rw [ih (cleanupStep closeError acc nm) (List.Nodup.of_cons hnd) hpres', he]
      simp [List.filterMap_cons, hce]

/-- Claim C6: `cleanup()` always completes without throwing — it is a total
state transition that catches every per-instance stop failure, collecting
exactly one error per failing instance (never rethrowing), and then tears
down all watches and clears every reloader table. -/
theorem cleanup_spec (insts : List (String × Instance)) (dyn : DynreloadState)
    (closeError : String → Option String) :
    ((cleanup insts dyn closeError).dyn.watchedFiles = [] ∧
     (cleanup insts dyn closeError).dyn.routeUpdateCallbacks = [] ∧
     (cleanup insts dyn closeError).dyn.cache = [] ∧
     (cleanup insts dyn closeError).dyn.lastValidModules = [] ∧
     (cleanup insts dyn closeError).dyn.dependencyGraph = []) ∧
    ((insts.map Prod.fst).Nodup →
      (cleanup insts dyn closeError).stopErrors =
        (insts.map Prod.fst).filterMap closeError) := by
  constructor
  · refine ⟨?_, rfl, rfl, rfl, rfl⟩
    show (stopWatchingAll ((insts.map Prod.fst).foldl (cleanupStep closeError)
      ⟨insts, dyn, [], []⟩).dyn).1.watchedFiles = []
    exact stopWatchingAll_watchedFiles _
  · intro hnd
    have hpres : ∀ nm ∈ insts.map Prod.fst,
        (mapGet (⟨insts, dyn, [], []⟩ : CleanupAcc).instances nm).isSome = true :=
      fun nm hnm => mapGet_isSome_of_mem_keys insts nm hnm
    have h := cleanupFold_stopErrors closeError (insts.map Prod.fst)
      ⟨insts, dyn, [], []⟩ hnd hpres
    show ((insts.map Prod.fst).foldl (cleanupStep closeError)
      ⟨insts, dyn, [], []⟩).stopErrors = (insts.map Prod.fst).filterMap closeError
    rw [h]
    simp

def c6InstA : Instance := ⟨⟨[]⟩, JSValue.arr [], 3000, false, JSValue.boolV false, none⟩

def c6InstB : Instance :=
  ⟨⟨[]⟩, JSValue.strV "/r.mjs", 3001, true, JSValue.boolV false, none⟩

def c6Dyn : DynreloadState :=
  ⟨true, [("/r.mjs", ⟨JSValue.arr [], 0⟩)], ["/r.mjs"], [("/r.mjs", 3)],
    [("/r.mjs", ⟨JSValue.arr [], 0⟩)], [("/r.mjs", [])]⟩

def c6Close : String → Option String :=
  fun nm => if nm = "a" then some "EBUSY" else none

/-- Witness for C6: a two-instance registry where stopping one instance
fails; cleanup still completes, collecting exactly that failure and
emptying the watch tables. -/
theorem cleanup_spec_witness :
    ([("a", c6InstA), ("b", c6InstB)].map Prod.fst).Nodup ∧
    (cleanup [("a", c6InstA), ("b", c6InstB)] c6Dyn c6Close).stopErrors =
      ([("a", c6InstA), ("b", c6InstB)].map Prod.fst).filterMap c6Close ∧
    (cleanup [("a", c6InstA), ("b", c6InstB)] c6Dyn c6Close).dyn.watchedFiles = [] :=
  ⟨by decide,
   (cleanup_spec [("a", c6InstA), ("b", c6InstB)] c6Dyn c6Close).2 (by decide),
   (cleanup_spec [("a", c6InstA), ("b", c6InstB)] c6Dyn c6Close).1.1⟩

end Kyrnex
